import Mathlib

/-!
Verification of the mnist-3lnn core (src/3lnn.c) against its specification.

The C code stores a three-layer feed-forward network in one contiguous arena
and navigates it by pointer arithmetic.  The shallow embedding below models
the arena contents structurally: the three consecutive layers of the arena
become the three Layer fields of Network, a node is addressed by its index
in the layer, and the byte-offset computations of getLayer and getNode are
modelled separately as pure arithmetic over the platform sizeof table
(CSizes).  C doubles are modelled as rationals; the transcendental libm
functions tanh and exp are external to the repository and enter as an
abstract parameter (CMath).  The C rand() sequence is modelled as a stream
rnd with rnd k the value of the k-th call, and RAND_MAX as RM.
All state mutation becomes explicit state passing; every C for-loop becomes
a List.foldl over List.range.
-/

namespace Mnist3lnn

inductive LayerType where
  | INPUT
  | HIDDEN
  | OUTPUT
deriving DecidableEq

inductive ActFctType where
  | SIGMOID
  | TANH
deriving DecidableEq

export LayerType (INPUT HIDDEN OUTPUT)
export ActFctType (SIGMOID TANH)

/-- struct Node of 3lnn.h: bias, output, weight count and the
trailing variable-length weight array, modelled as a list. -/
structure Node where
  bias : ℚ
  output : ℚ
  wcount : ℕ
  weights : List ℚ
deriving DecidableEq

/-- struct Layer: node count and the trailing run of nodes. -/
structure Layer where
  ncount : ℕ
  nodes : List Node
deriving DecidableEq

/-- struct Network: the six byte sizes remembered at construction, the
hyper parameters, and the three consecutive layers of the arena. -/
structure Network where
  inpNodeSize : ℕ
  inpLayerSize : ℕ
  hidNodeSize : ℕ
  hidLayerSize : ℕ
  outNodeSize : ℕ
  outLayerSize : ℕ
  learningRate : ℚ
  hidLayerActType : ActFctType
  outLayerActType : ActFctType
  inputLayer : Layer
  hiddenLayer : Layer
  outputLayer : Layer
deriving DecidableEq

/-- struct Vector: size and the trailing value array. -/
structure Vector where
  size : ℕ
  vals : List ℚ
deriving DecidableEq

/-- The libm functions used by 3lnn.c; they are external to the repository,
so they are parameters of the model. -/
structure CMath where
  tanh : ℚ → ℚ
  exp : ℚ → ℚ

/-- The platform sizeof values that the C size calculations use:
sizeof(Node), sizeof(Layer) and sizeof(double). -/
structure CSizes where
  szNode : ℕ
  szLayer : ℕ
  szDouble : ℕ
deriving DecidableEq

/-- Reading an out-of-range node in C is undefined behaviour; the model
returns this all-zero node there. -/
def dfltNode : Node := { bias := 0, output := 0, wcount := 0, weights := [] }

/-- getNode of 3lnn.c, structurally: the node at index nodeId of the layer.
(The byte-offset arithmetic the C function performs is modelled by
getNodeOffset below.) -/
def getNode (l : Layer) (nodeId : ℕ) : Node :=
  l.nodes.getD nodeId dfltNode

/-- getLayer of 3lnn.c, structurally: selects one of the three consecutive
layers of the arena.  (The byte-offset arithmetic is getLayerOffset below.)
The C switch treats every value other than INPUT and HIDDEN as OUTPUT. -/
def getLayer (nn : Network) (ltype : LayerType) : Layer :=
  match ltype with
  | INPUT => nn.inputLayer
  | HIDDEN => nn.hiddenLayer
  | OUTPUT => nn.outputLayer

/-- Writing a layer back into the arena (in C this is mutation in place). -/
def setLayer (nn : Network) (ltype : LayerType) (l : Layer) : Network :=
  match ltype with
  | INPUT => { nn with inputLayer := l }
  | HIDDEN => { nn with hiddenLayer := l }
  | OUTPUT => { nn with outputLayer := l }

/-- Writing a node back into a layer (in C this is mutation in place). -/
def setNode (l : Layer) (nodeId : ℕ) (n : Node) : Layer :=
  { l with nodes := l.nodes.set nodeId n }

/-- getNode of 3lnn.c as the byte-offset computation it performs:
nodeSize = sizeof(Node) + nodes[0].wcount * sizeof(double), and the node at
nodeId lives at byte offset nodeId * nodeSize.  No bounds check is made:
the formula applies to every nodeId. -/
def getNodeOffset (C : CSizes) (l : Layer) (nodeId : ℕ) : ℕ :=
  nodeId * (C.szNode + (l.nodes.getD 0 dfltNode).wcount * C.szDouble)

/-- getLayer of 3lnn.c as the byte-offset computation it performs on the
layer region of the arena. -/
def getLayerOffset (nn : Network) (ltype : LayerType) : ℕ :=
  match ltype with
  | INPUT => 0
  | HIDDEN => nn.inpLayerSize
  | OUTPUT => nn.inpLayerSize + nn.hidLayerSize

/-! ### Frame lemmas for the layer accessors -/

@[simp] theorem getLayer_setLayer_II (nn : Network) (l : Layer) :
    getLayer (setLayer nn INPUT l) INPUT = l := rfl

@[simp] theorem getLayer_setLayer_HH (nn : Network) (l : Layer) :
    getLayer (setLayer nn HIDDEN l) HIDDEN = l := rfl

@[simp] theorem getLayer_setLayer_OO (nn : Network) (l : Layer) :
    getLayer (setLayer nn OUTPUT l) OUTPUT = l := rfl

@[simp] theorem getLayer_setLayer_IH (nn : Network) (l : Layer) :
    getLayer (setLayer nn HIDDEN l) INPUT = getLayer nn INPUT := rfl

@[simp] theorem getLayer_setLayer_IO (nn : Network) (l : Layer) :
    getLayer (setLayer nn OUTPUT l) INPUT = getLayer nn INPUT := rfl

@[simp] theorem getLayer_setLayer_HI (nn : Network) (l : Layer) :
    getLayer (setLayer nn INPUT l) HIDDEN = getLayer nn HIDDEN := rfl

@[simp] theorem getLayer_setLayer_HO (nn : Network) (l : Layer) :
    getLayer (setLayer nn OUTPUT l) HIDDEN = getLayer nn HIDDEN := rfl

@[simp] theorem getLayer_setLayer_OI (nn : Network) (l : Layer) :
    getLayer (setLayer nn INPUT l) OUTPUT = getLayer nn OUTPUT := rfl

@[simp] theorem getLayer_setLayer_OH (nn : Network) (l : Layer) :
    getLayer (setLayer nn HIDDEN l) OUTPUT = getLayer nn OUTPUT := rfl

@[simp] theorem setLayer_setLayer (nn : Network) (T : LayerType) (a b : Layer) :
    setLayer (setLayer nn T a) T b = setLayer nn T b := by
  cases T <;> rfl

@[simp] theorem setLayer_getLayer (nn : Network) (T : LayerType) :
    setLayer nn T (getLayer nn T) = nn := by
  cases T <;> rfl

@[simp] theorem learningRate_setLayer (nn : Network) (T : LayerType) (l : Layer) :
    (setLayer nn T l).learningRate = nn.learningRate := by
  cases T <;> rfl

@[simp] theorem hidAct_setLayer (nn : Network) (T : LayerType) (l : Layer) :
    (setLayer nn T l).hidLayerActType = nn.hidLayerActType := by
  cases T <;> rfl

@[simp] theorem outAct_setLayer (nn : Network) (T : LayerType) (l : Layer) :
    (setLayer nn T l).outLayerActType = nn.outLayerActType := by
  cases T <;> rfl

@[simp] theorem inpNodeSize_setLayer (nn : Network) (T : LayerType) (l : Layer) :
    (setLayer nn T l).inpNodeSize = nn.inpNodeSize := by
  cases T <;> rfl

@[simp] theorem inpLayerSize_setLayer (nn : Network) (T : LayerType) (l : Layer) :
    (setLayer nn T l).inpLayerSize = nn.inpLayerSize := by
  cases T <;> rfl

@[simp] theorem hidNodeSize_setLayer (nn : Network) (T : LayerType) (l : Layer) :
    (setLayer nn T l).hidNodeSize = nn.hidNodeSize := by
  cases T <;> rfl

@[simp] theorem hidLayerSize_setLayer (nn : Network) (T : LayerType) (l : Layer) :
    (setLayer nn T l).hidLayerSize = nn.hidLayerSize := by
  cases T <;> rfl

@[simp] theorem outNodeSize_setLayer (nn : Network) (T : LayerType) (l : Layer) :
    (setLayer nn T l).outNodeSize = nn.outNodeSize := by
  cases T <;> rfl

@[simp] theorem outLayerSize_setLayer (nn : Network) (T : LayerType) (l : Layer) :
    (setLayer nn T l).outLayerSize = nn.outLayerSize := by
  cases T <;> rfl

@[simp] theorem ncount_setNode (l : Layer) (i : ℕ) (n : Node) :
    (setNode l i n).ncount = l.ncount := rfl

@[simp] theorem nodes_setNode (l : Layer) (i : ℕ) (n : Node) :
    (setNode l i n).nodes = l.nodes.set i n := rfl

/-! ### Generic loop lemmas

Each C loop that writes node (or weight) i on iteration i becomes a foldl
that sets index i of a list; setEach is that loop schema and the lemmas
below give its pointwise effect. -/

/-- The loop schema: for i in [0, m), replace position i of the list by
g i applied to the old value at i. -/
def setEach {α : Type} (d : α) (g : ℕ → α → α) (m : ℕ) (l : List α) : List α :=
  (List.range m).foldl (fun l2 i => l2.set i (g i (l2.getD i d))) l

theorem setEach_zero {α : Type} (d : α) (g : ℕ → α → α) (l : List α) :
    setEach d g 0 l = l := rfl

theorem setEach_succ {α : Type} (d : α) (g : ℕ → α → α) (m : ℕ) (l : List α) :
    setEach d g (m + 1) l =
      (setEach d g m l).set m (g m ((setEach d g m l).getD m d)) := by
  unfold setEach
  rw [List.range_succ, List.foldl_append, List.foldl_cons, List.foldl_nil]

@[simp] theorem length_setEach {α : Type} (d : α) (g : ℕ → α → α) (m : ℕ) (l : List α) :
    (setEach d g m l).length = l.length := by
  induction m with
  | zero => rfl
  | succ m ih => rw [setEach_succ, List.length_set, ih]

theorem getD_set {α : Type} (l : List α) (i j : ℕ) (a d : α) :
    (l.set i a).getD j d =
      if i = j ∧ i < l.length then a else l.getD j d := by
  rw [List.getD_eq_getElem?_getD, List.getD_eq_getElem?_getD, List.getElem?_set]
  by_cases h1 : i = j
  · subst h1
    by_cases h2 : i < l.length
    · simp [h2]
    · simp [h2, List.getElem?_eq_none (le_of_not_lt h2)]
  · simp [h1]

theorem set_getD_self {α : Type} (l : List α) (i : ℕ) (d : α) :
    l.set i (l.getD i d) = l := by
  induction l generalizing i with
  | nil => rfl
  | cons a t ih =>
    cases i with
    | zero => rfl
    | succ i =>
      show a :: t.set i (t.getD i d) = a :: t
      rw [ih]

theorem getD_map {α β : Type} (f : α → β) (l : List α) (i : ℕ) (d : α) :
    (l.map f).getD i (f d) = f (l.getD i d) := by
  rw [List.getD_eq_getElem?_getD, List.getD_eq_getElem?_getD, List.getElem?_map]
  cases h : l[i]? <;> simp

theorem getD_setEach {α : Type} (d : α) (g : ℕ → α → α) (m : ℕ) (l : List α) (j : ℕ) :
    (setEach d g m l).getD j d =
      if j < m ∧ j < l.length then g j (l.getD j d) else l.getD j d := by
  induction m with
  | zero =>
    simp [setEach_zero]
  | succ m ih =>
    rw [setEach_succ, getD_set, length_setEach]
    by_cases hjm : m = j
    · subst hjm
      by_cases hm : m < l.length
      · rw [if_pos ⟨rfl, hm⟩, ih,
          if_neg (fun h => absurd h.1 (lt_irrefl m)),
          if_pos ⟨Nat.lt_succ_self m, hm⟩]
      · rw [if_neg (fun h => absurd h.2 hm), ih,
          if_neg (fun h => absurd h.1 (lt_irrefl m)),
          if_neg (fun h => absurd h.2 hm)]
    · rw [if_neg (fun h => absurd h.1 hjm), ih]
      have hiff : (j < m ∧ j < l.length) ↔ (j < m + 1 ∧ j < l.length) := by omega
      exact if_congr hiff rfl rfl

theorem map_setEach {α β : Type} (d : α) (g : ℕ → α → α) (f : α → β)
    (hf : ∀ i x, f (g i x) = f x) (m : ℕ) (l : List α) :
    (setEach d g m l).map f = l.map f := by
  induction m with
  | zero => rfl
  | succ m ih =>
    rw [setEach_succ, List.map_set, ih, hf, getD_setEach,
      if_neg (fun h => absurd h.1 (lt_irrefl m)), ← getD_map f l m d, set_getD_self]

theorem foldl_add_range (f : ℕ → ℚ) (b : ℚ) (n : ℕ) :
    (List.range n).foldl (fun acc i => acc + f i) b = b + ∑ i ∈ Finset.range n, f i := by
  induction n with
  | zero => simp
  | succ n ih =>
    rw [List.range_succ, List.foldl_append, List.foldl_cons, List.foldl_nil, ih,
      Finset.sum_range_succ, add_assoc]

/-! ### The operations of 3lnn.c -/

/-- getActFctDerivative of 3lnn.c. -/
def getActFctDerivative (M : CMath) (nn : Network) (ltype : LayerType) (outVal : ℚ) : ℚ :=
  let actFct := if ltype = HIDDEN then nn.hidLayerActType else nn.outLayerActType
  if actFct = TANH then 1 - (M.tanh outVal) ^ 2 else outVal * (1 - outVal)

/-- The previous-layer choice that updateNodeWeights and calcNodeOutput both
make: INPUT before HIDDEN, and HIDDEN before anything else. -/
def prevLayerOf (nn : Network) (ltype : LayerType) : Layer :=
  if ltype = HIDDEN then getLayer nn INPUT else getLayer nn HIDDEN

/-- updateNodeWeights of 3lnn.c: for every connection i of the node,
weight[i] += learningRate * previousLayerNode[i].output * error, and then
bias += learningRate * 1 * error. -/
def updateNodeWeights (nn : Network) (ltype : LayerType) (id : ℕ) (error : ℚ) : Network :=
  let updateLayer := getLayer nn ltype
  let updateNode := getNode updateLayer id
  let prevLayer := prevLayerOf nn ltype
  let newWeights := (List.range updateNode.wcount).foldl
      (fun ws i => ws.set i
        (ws.getD i 0 + nn.learningRate * (getNode prevLayer i).output * error))
      updateNode.weights
  setLayer nn ltype (setNode updateLayer id
    { updateNode with
        weights := newWeights
        bias := updateNode.bias + nn.learningRate * 1 * error })

/-- The weighted sum that calcNodeOutput accumulates: the bias of the node
plus, for every node i of the previous layer, previousNode[i].output times
weight[i] of the node. -/
def calcNodeVal (nn : Network) (ltype : LayerType) (n : Node) : ℚ :=
  n.bias + ∑ i ∈ Finset.range (prevLayerOf nn ltype).ncount,
    (getNode (prevLayerOf nn ltype) i).output * n.weights.getD i 0

/-- calcNodeOutput of 3lnn.c: output = bias, then output += prev output
times weight, over every node of the previous layer.  The running writes to
output never feed back into the sum (the previous layer is a different
layer), so the loop is modelled by its accumulated value. -/
def calcNodeOutput (nn : Network) (ltype : LayerType) (id : ℕ) : Network :=
  let calcLayerL := getLayer nn ltype
  let calcNode := getNode calcLayerL id
  let prevLayer := prevLayerOf nn ltype
  let newOutput := (List.range prevLayer.ncount).foldl
      (fun acc i => acc + (getNode prevLayer i).output * calcNode.weights.getD i 0)
      calcNode.bias
  setLayer nn ltype (setNode calcLayerL id { calcNode with output := newOutput })

/-- The activation value activateNode writes: tanh for TANH, else the
logistic sigmoid 1 / (1 + exp(-x)). -/
def actApply (M : CMath) (nn : Network) (ltype : LayerType) (x : ℚ) : ℚ :=
  let actFct := if ltype = HIDDEN then nn.hidLayerActType else nn.outLayerActType
  if actFct = TANH then M.tanh x else 1 / (1 + M.exp (-x))

/-- activateNode of 3lnn.c: applies the configured activation function to
the output of the node, in place. -/
def activateNode (M : CMath) (nn : Network) (ltype : LayerType) (id : ℕ) : Network :=
  let l := getLayer nn ltype
  let n := getNode l id
  setLayer nn ltype (setNode l id { n with output := actApply M nn ltype n.output })

/-- calcLayer of 3lnn.c: for every node of the layer in index order,
calcNodeOutput then activateNode. -/
def calcLayer (M : CMath) (nn : Network) (ltype : LayerType) : Network :=
  (List.range (getLayer nn ltype).ncount).foldl
    (fun s i => activateNode M (calcNodeOutput s ltype i) ltype i) nn

/-- feedForwardNetwork of 3lnn.c: the hidden layer first, then the output
layer. -/
def feedForwardNetwork (M : CMath) (nn : Network) : Network :=
  calcLayer M (calcLayer M nn HIDDEN) OUTPUT

/-- feedInput of 3lnn.c: copies vector value i into the output field of
input node i, for i below the size of the vector. -/
def feedInput (nn : Network) (v : Vector) : Network :=
  (List.range v.size).foldl
    (fun s i => setLayer s INPUT
      (setNode (getLayer s INPUT) i
        { getNode (getLayer s INPUT) i with output := v.vals.getD i 0 }))
    nn

/-- backPropagateOutputLayer of 3lnn.c: for every output node o, error
signal (target - output) * derivative, then updateNodeWeights. -/
def backPropagateOutputLayer (M : CMath) (nn : Network) (targetClassification : ℕ) : Network :=
  (List.range (getLayer nn OUTPUT).ncount).foldl
    (fun s o =>
      let onode := getNode (getLayer s OUTPUT) o
      let targetOutput : ℚ := if o = targetClassification then 1 else 0
      let errorDelta := targetOutput - onode.output
      let errorSignal := errorDelta * getActFctDerivative M s OUTPUT onode.output
      updateNodeWeights s OUTPUT o errorSignal)
    nn

/-- backPropagateHiddenLayer of 3lnn.c: for every hidden node h, the sum
over all output nodes o of errorSignal(o) * outputNode[o].weight[h], read
from the network state s as it is when the hidden pass runs, then the
hidden error signal and updateNodeWeights. -/
def backPropagateHiddenLayer (M : CMath) (nn : Network) (targetClassification : ℕ) : Network :=
  (List.range (getLayer nn HIDDEN).ncount).foldl
    (fun s h =>
      let hn := getNode (getLayer s HIDDEN) h
      let outputcellerrorsum := (List.range (getLayer s OUTPUT).ncount).foldl
        (fun acc o =>
          let onode := getNode (getLayer s OUTPUT) o
          let targetOutput : ℚ := if o = targetClassification then 1 else 0
          let errorDelta := targetOutput - onode.output
          let errorSignal := errorDelta * getActFctDerivative M s OUTPUT onode.output
          acc + errorSignal * onode.weights.getD h 0)
        0
      let hiddenErrorSignal :=
        outputcellerrorsum * getActFctDerivative M s HIDDEN hn.output
      updateNodeWeights s HIDDEN h hiddenErrorSignal)
    nn

/-- backPropagateNetwork of 3lnn.c: output layer first, then hidden layer. -/
def backPropagateNetwork (M : CMath) (nn : Network) (targetClassification : ℕ) : Network :=
  backPropagateHiddenLayer M (backPropagateOutputLayer M nn targetClassification)
    targetClassification

/-- Modelled from the spec: the hidden-layer backward pass as section 4.5
words it, where the backpropagated error sum reads the output-layer weight
values from wsrc (the claim takes wsrc to be the pre-update network, i.e.
the weights active during the forward pass) while everything else is read
from the running state.  This is the comparison point for claim C1; it is
not a function of 3lnn.c. -/
def backPropagateHiddenLayerFrom (M : CMath) (wsrc : Network) (nn : Network)
    (targetClassification : ℕ) : Network :=
  (List.range (getLayer nn HIDDEN).ncount).foldl
    (fun s h =>
      let hn := getNode (getLayer s HIDDEN) h
      let outputcellerrorsum := (List.range (getLayer s OUTPUT).ncount).foldl
        (fun acc o =>
          let onode := getNode (getLayer s OUTPUT) o
          let targetOutput : ℚ := if o = targetClassification then 1 else 0
          let errorDelta := targetOutput - onode.output
          let errorSignal := errorDelta * getActFctDerivative M s OUTPUT onode.output
          acc + errorSignal * (getNode (getLayer wsrc OUTPUT) o).weights.getD h 0)
        0
      let hiddenErrorSignal :=
        outputcellerrorsum * getActFctDerivative M s HIDDEN hn.output
      updateNodeWeights s HIDDEN h hiddenErrorSignal)
    nn

/-- getNetworkClassification of 3lnn.c: running maximum initialised to
zero, index updated on strictly greater output, scanned in index order. -/
def getNetworkClassification (nn : Network) : ℕ :=
  let l := getLayer nn OUTPUT
  ((List.range l.ncount).foldl
    (fun p i =>
      let onode := getNode l i
      if p.1 < onode.output then (onode.output, i) else p)
    ((0 : ℚ), (0 : ℕ))).2

/-! ### The builder of 3lnn.c -/

/-- createInputLayer of 3lnn.c: inpCount copies of a default node with
bias 0, output 0 and no weights. -/
def createInputLayer (inpCount : ℕ) : Layer :=
  { ncount := inpCount
    nodes := List.replicate inpCount { bias := 0, output := 0, wcount := 0, weights := [] } }

/-- createLayer of 3lnn.c: nodeCount copies of a default node with bias 0,
output 0 and weightCount zero weights. -/
def createLayer (nodeCount : ℕ) (weightCount : ℕ) : Layer :=
  { ncount := nodeCount
    nodes := List.replicate nodeCount
      { bias := 0, output := 0, wcount := weightCount
        weights := List.replicate weightCount 0 } }

/-- initNetwork of 3lnn.c: copies the three freshly created layers into the
arena.  The memcpy with the stored byte sizes is modelled as whole-layer
assignment, exact because createNetwork stores sizes matching the created
layers. -/
def initNetwork (nn : Network) (inpCount : ℕ) (hidCount : ℕ) (outCount : ℕ) : Network :=
  { nn with
      inputLayer := createInputLayer inpCount
      hiddenLayer := createLayer hidCount inpCount
      outputLayer := createLayer outCount hidCount }

/-- setNetworkDefaults of 3lnn.c: SIGMOID for both layers; the learning
rate is assigned 0.004 and immediately overwritten with 0.2, so the net
effect is 0.2. -/
def setNetworkDefaults (nn : Network) : Network :=
  { nn with
      hidLayerActType := SIGMOID
      outLayerActType := SIGMOID
      learningRate := 0.2 }

/-- One weight as initWeights draws it: 0.7 * (rand() / RAND_MAX), negated
at odd connection indices.  The k-th rand() call of the run is rnd k. -/
def drawWeight (RM : ℕ) (rnd : ℕ → ℕ) (k : ℕ) (i : ℕ) : ℚ :=
  let w := 0.7 * ((rnd k : ℚ) / (RM : ℚ))
  if i % 2 = 1 then -w else w

/-- The body of the initWeights node loop: the weights of the node are
drawn with consecutive rand() calls starting at stream position k, then the
bias with the next call, negated at odd node indices o. -/
def initWeightsNode (RM : ℕ) (rnd : ℕ → ℕ) (k : ℕ) (o : ℕ) (n : Node) : Node :=
  let ws := (List.range n.wcount).foldl
    (fun l i => l.set i (drawWeight RM rnd (k + i) i)) n.weights
  let b0 := (rnd (k + n.wcount) : ℚ) / (RM : ℚ)
  { n with weights := ws, bias := if o % 2 = 1 then -b0 else b0 }

/-- The number of rand() calls a pass of initWeights over a layer consumes:
wcount + 1 per node. -/
def randConsumption (l : Layer) : ℕ :=
  ∑ o ∈ Finset.range l.ncount, ((l.nodes.getD o dfltNode).wcount + 1)

/-- initWeights of 3lnn.c: walks the nodes of the layer, randomising all
weights and the bias of each.  Node o starts at the stream position equal
to k0 plus the calls consumed by nodes before it. -/
def initWeights (RM : ℕ) (rnd : ℕ → ℕ) (k0 : ℕ) (nn : Network) (ltype : LayerType) : Network :=
  let l := getLayer nn ltype
  let nodes2 := (List.range l.ncount).foldl
    (fun ns o => ns.set o
      (initWeightsNode RM rnd
        (k0 + ∑ j ∈ Finset.range o, ((l.nodes.getD j dfltNode).wcount + 1))
        o (ns.getD o dfltNode)))
    l.nodes
  setLayer nn ltype { l with nodes := nodes2 }

/-- createNetwork of 3lnn.c: computes and stores the six byte sizes,
initialises the three layers, sets the defaults and randomises the hidden
and output weights.  The malloc leaves every field uninitialised until the
steps below write it; the placeholder values of nn0 model that and are all
overwritten before any read. -/
def createNetwork (C : CSizes) (RM : ℕ) (rnd : ℕ → ℕ)
    (inpCount : ℕ) (hidCount : ℕ) (outCount : ℕ) : Network :=
  let inpNodeSize := C.szNode
  let inpLayerSize := C.szLayer + inpCount * inpNodeSize
  let hidWeightsCount := inpCount
  let hidNodeSize := C.szNode + hidWeightsCount * C.szDouble
  let hidLayerSize := C.szLayer + hidCount * hidNodeSize
  let outWeightsCount := hidCount
  let outNodeSize := C.szNode + outWeightsCount * C.szDouble
  let outLayerSize := C.szLayer + outCount * outNodeSize
  let nn0 : Network :=
    { inpNodeSize := inpNodeSize
      inpLayerSize := inpLayerSize
      hidNodeSize := hidNodeSize
      hidLayerSize := hidLayerSize
      outNodeSize := outNodeSize
      outLayerSize := outLayerSize
      learningRate := 0
      hidLayerActType := SIGMOID
      outLayerActType := SIGMOID
      inputLayer := { ncount := 0, nodes := [] }
      hiddenLayer := { ncount := 0, nodes := [] }
      outputLayer := { ncount := 0, nodes := [] } }
  let nn1 := initNetwork nn0 inpCount hidCount outCount
  let nn2 := setNetworkDefaults nn1
  let nn3 := initWeights RM rnd 0 nn2 HIDDEN
  initWeights RM rnd (randConsumption (getLayer nn2 HIDDEN)) nn3 OUTPUT

/-! ### Characterisation of the per-node loops -/

theorem getLayer_setLayer_same (nn : Network) (T : LayerType) (l : Layer) :
    getLayer (setLayer nn T l) T = l := by
  cases T <;> rfl

theorem prevLayerOf_setLayer_self (nn : Network) (T : LayerType) (l : Layer) :
    prevLayerOf (setLayer nn T l) T = prevLayerOf nn T := by
  cases T <;> simp [prevLayerOf]

theorem actApply_setLayer (M : CMath) (nn : Network) (T : LayerType) (l : Layer)
    (lt : LayerType) (x : ℚ) :
    actApply M (setLayer nn T l) lt x = actApply M nn lt x := by
  simp [actApply]

theorem getActFctDerivative_setLayer (M : CMath) (nn : Network) (T : LayerType)
    (l : Layer) (lt : LayerType) (x : ℚ) :
    getActFctDerivative M (setLayer nn T l) lt x = getActFctDerivative M nn lt x := by
  simp [getActFctDerivative]

theorem calcNodeVal_setLayer (nn : Network) (T : LayerType) (l : Layer)
    (n : Node) :
    calcNodeVal (setLayer nn T l) T n = calcNodeVal nn T n := by
  simp [calcNodeVal, prevLayerOf_setLayer_self]

/-- The generic node loop of the C code: iteration i rewrites node i of the
fixed target layer T from the current state.  When the rewriting function F
only reads parts of the state outside layer T, the loop equals a batch
update of the layer computed entirely from the initial state. -/
theorem foldl_setNode_eq (nn : Network) (T : LayerType) (F : Network → ℕ → Node → Node)
    (hF : ∀ L i n, F (setLayer nn T L) i n = F nn i n) (m : ℕ) :
    (List.range m).foldl
        (fun s i => setLayer s T (setNode (getLayer s T) i (F s i (getNode (getLayer s T) i))))
        nn
      = setLayer nn T
          { getLayer nn T with nodes := setEach dfltNode (F nn) m (getLayer nn T).nodes } := by
  induction m with
  | zero => exact (setLayer_getLayer nn T).symm
  | succ m ih =>
    rw [List.range_succ, List.foldl_append, List.foldl_cons, List.foldl_nil, ih,
      getLayer_setLayer_same, setLayer_setLayer, hF, setEach_succ]
    rfl

/-- One calcLayer iteration: calcNodeOutput then activateNode on the same
node collapses to one node replacement whose output is the activated
weighted sum. -/
theorem calc_activate_step (M : CMath) (s : Network) (T : LayerType) (i : ℕ) :
    activateNode M (calcNodeOutput s T i) T i
      = setLayer s T (setNode (getLayer s T) i
          { getNode (getLayer s T) i with
              output := actApply M s T (calcNodeVal s T (getNode (getLayer s T) i)) }) := by
  have hw : (List.range (prevLayerOf s T).ncount).foldl
      (fun acc j => acc + (getNode (prevLayerOf s T) j).output
        * (getNode (getLayer s T) i).weights.getD j 0)
      (getNode (getLayer s T) i).bias
      = calcNodeVal s T (getNode (getLayer s T) i) := by
    rw [foldl_add_range]; rfl
  unfold activateNode calcNodeOutput
  simp only [getLayer_setLayer_same, setLayer_setLayer, actApply_setLayer, hw]
  by_cases hlen : i < (getLayer s T).nodes.length
  · have hget : getNode (setNode (getLayer s T) i
        { getNode (getLayer s T) i with
            output := calcNodeVal s T (getNode (getLayer s T) i) }) i
        = { getNode (getLayer s T) i with
            output := calcNodeVal s T (getNode (getLayer s T) i) } := by
      simp [getNode, setNode, getD_set, hlen]
    rw [hget]
    unfold setNode
    rw [List.set_set]
  · have hset : ∀ x : Node, (getLayer s T).nodes.set i x = (getLayer s T).nodes :=
      fun x => List.set_eq_of_length_le (le_of_not_lt hlen)
    simp [setNode, hset]

/-- calcLayer as a batch update of the target layer, computed from the
state at entry: node j gets output actApply(calcNodeVal) of the old node. -/
theorem calcLayer_eq (M : CMath) (nn : Network) (T : LayerType) :
    calcLayer M nn T = setLayer nn T
      { getLayer nn T with
          nodes := setEach dfltNode
            (fun _ n => { n with output := actApply M nn T (calcNodeVal nn T n) })
            (getLayer nn T).ncount (getLayer nn T).nodes } := by
  have hbody : (fun s i => activateNode M (calcNodeOutput s T i) T i)
      = (fun s i => setLayer s T (setNode (getLayer s T) i
          ((fun (s : Network) (_ : ℕ) (n : Node) =>
            { n with output := actApply M s T (calcNodeVal s T n) })
            s i (getNode (getLayer s T) i)))) :=
    funext fun s => funext fun i => calc_activate_step M s T i
  unfold calcLayer
  rw [hbody]
  refine foldl_setNode_eq nn T
    (fun s _ n => { n with output := actApply M s T (calcNodeVal s T n) })
    (fun L i n => ?_) (getLayer nn T).ncount
  simp only [actApply_setLayer, calcNodeVal_setLayer]

/-- feedInput as a batch update of the input layer. -/
theorem feedInput_eq (nn : Network) (v : Vector) :
    feedInput nn v = setLayer nn INPUT
      { getLayer nn INPUT with
          nodes := setEach dfltNode (fun i n => { n with output := v.vals.getD i 0 })
            v.size (getLayer nn INPUT).nodes } := by
  unfold feedInput
  exact foldl_setNode_eq nn INPUT
    (fun _ i n => { n with output := v.vals.getD i 0 }) (fun L i n => rfl) v.size

/-- The node transformation performed by updateNodeWeights, as a function
of the node being updated. -/
def updWeights (s : Network) (T : LayerType) (e : ℚ) (n : Node) : Node :=
  { n with
      weights := (List.range n.wcount).foldl
        (fun ws i => ws.set i
          (ws.getD i 0 + s.learningRate * (getNode (prevLayerOf s T) i).output * e))
        n.weights
      bias := n.bias + s.learningRate * 1 * e }

theorem updateNodeWeights_eq (s : Network) (T : LayerType) (id : ℕ) (e : ℚ) :
    updateNodeWeights s T id e
      = setLayer s T (setNode (getLayer s T) id (updWeights s T e (getNode (getLayer s T) id))) :=
  rfl

theorem updWeights_setLayer (nn : Network) (T : LayerType) (l : Layer) (e : ℚ) (n : Node) :
    updWeights (setLayer nn T l) T e n = updWeights nn T e n := by
  simp only [updWeights, learningRate_setLayer, prevLayerOf_setLayer_self]

/-- The node transformation of one backPropagateOutputLayer iteration. -/
def outStep (M : CMath) (t : ℕ) (s : Network) (o : ℕ) (n : Node) : Node :=
  updWeights s OUTPUT
    (((if o = t then (1 : ℚ) else 0) - n.output) * getActFctDerivative M s OUTPUT n.output) n

/-- The node transformation of one backPropagateHiddenLayer iteration: the
error sum reads the output-layer weights of the running state s. -/
def hidStep (M : CMath) (t : ℕ) (s : Network) (h : ℕ) (n : Node) : Node :=
  updWeights s HIDDEN
    (((List.range (getLayer s OUTPUT).ncount).foldl
        (fun acc o =>
          acc + (((if o = t then (1 : ℚ) else 0) - (getNode (getLayer s OUTPUT) o).output)
              * getActFctDerivative M s OUTPUT (getNode (getLayer s OUTPUT) o).output)
            * (getNode (getLayer s OUTPUT) o).weights.getD h 0)
        0)
      * getActFctDerivative M s HIDDEN n.output) n

/-- Same, but with the weight factor read from wsrc. -/
def hidStepFrom (M : CMath) (t : ℕ) (wsrc : Network) (s : Network) (h : ℕ) (n : Node) : Node :=
  updWeights s HIDDEN
    (((List.range (getLayer s OUTPUT).ncount).foldl
        (fun acc o =>
          acc + (((if o = t then (1 : ℚ) else 0) - (getNode (getLayer s OUTPUT) o).output)
              * getActFctDerivative M s OUTPUT (getNode (getLayer s OUTPUT) o).output)
            * (getNode (getLayer wsrc OUTPUT) o).weights.getD h 0)
        0)
      * getActFctDerivative M s HIDDEN n.output) n

theorem backPropagateOutputLayer_eq (M : CMath) (nn : Network) (t : ℕ) :
    backPropagateOutputLayer M nn t = setLayer nn OUTPUT
      { getLayer nn OUTPUT with
          nodes := setEach dfltNode (outStep M t nn)
            (getLayer nn OUTPUT).ncount (getLayer nn OUTPUT).nodes } := by
  have hbody : (fun (s : Network) (o : ℕ) =>
      let onode := getNode (getLayer s OUTPUT) o
      let targetOutput : ℚ := if o = t then 1 else 0
      let errorDelta := targetOutput - onode.output
      let errorSignal := errorDelta * getActFctDerivative M s OUTPUT onode.output
      updateNodeWeights s OUTPUT o errorSignal)
      = (fun s o => setLayer s OUTPUT (setNode (getLayer s OUTPUT) o
          (outStep M t s o (getNode (getLayer s OUTPUT) o)))) := rfl
  unfold backPropagateOutputLayer
  rw [hbody]
  refine foldl_setNode_eq nn OUTPUT (outStep M t) (fun L i n => ?_) _
  simp only [outStep, updWeights_setLayer, getActFctDerivative_setLayer]

theorem backPropagateHiddenLayer_eq (M : CMath) (nn : Network) (t : ℕ) :
    backPropagateHiddenLayer M nn t = setLayer nn HIDDEN
      { getLayer nn HIDDEN with
          nodes := setEach dfltNode (hidStep M t nn)
            (getLayer nn HIDDEN).ncount (getLayer nn HIDDEN).nodes } := by
  have hbody : (fun (s : Network) (h : ℕ) =>
      let hn := getNode (getLayer s HIDDEN) h
      let outputcellerrorsum := (List.range (getLayer s OUTPUT).ncount).foldl
        (fun acc o =>
          let onode := getNode (getLayer s OUTPUT) o
          let targetOutput : ℚ := if o = t then 1 else 0
          let errorDelta := targetOutput - onode.output
          let errorSignal := errorDelta * getActFctDerivative M s OUTPUT onode.output
          acc + errorSignal * onode.weights.getD h 0)
        0
      let hiddenErrorSignal := outputcellerrorsum * getActFctDerivative M s HIDDEN hn.output
      updateNodeWeights s HIDDEN h hiddenErrorSignal)
      = (fun s h => setLayer s HIDDEN (setNode (getLayer s HIDDEN) h
          (hidStep M t s h (getNode (getLayer s HIDDEN) h)))) := rfl
  unfold backPropagateHiddenLayer
  rw [hbody]
  refine foldl_setNode_eq nn HIDDEN (hidStep M t) (fun L i n => ?_) _
  simp only [hidStep, updWeights_setLayer, getActFctDerivative_setLayer,
    getLayer_setLayer_OH]

theorem backPropagateHiddenLayerFrom_eq (M : CMath) (wsrc : Network) (nn : Network) (t : ℕ) :
    backPropagateHiddenLayerFrom M wsrc nn t = setLayer nn HIDDEN
      { getLayer nn HIDDEN with
          nodes := setEach dfltNode (hidStepFrom M t wsrc nn)
            (getLayer nn HIDDEN).ncount (getLayer nn HIDDEN).nodes } := by
  have hbody : (fun (s : Network) (h : ℕ) =>
      let hn := getNode (getLayer s HIDDEN) h
      let outputcellerrorsum := (List.range (getLayer s OUTPUT).ncount).foldl
        (fun acc o =>
          let onode := getNode (getLayer s OUTPUT) o
          let targetOutput : ℚ := if o = t then 1 else 0
          let errorDelta := targetOutput - onode.output
          let errorSignal := errorDelta * getActFctDerivative M s OUTPUT onode.output
          acc + errorSignal * (getNode (getLayer wsrc OUTPUT) o).weights.getD h 0)
        0
      let hiddenErrorSignal := outputcellerrorsum * getActFctDerivative M s HIDDEN hn.output
      updateNodeWeights s HIDDEN h hiddenErrorSignal)
      = (fun s h => setLayer s HIDDEN (setNode (getLayer s HIDDEN) h
          (hidStepFrom M t wsrc s h (getNode (getLayer s HIDDEN) h)))) := rfl
  unfold backPropagateHiddenLayerFrom
  rw [hbody]
  refine foldl_setNode_eq nn HIDDEN (hidStepFrom M t wsrc) (fun L i n => ?_) _
  simp only [hidStepFrom, updWeights_setLayer, getActFctDerivative_setLayer,
    getLayer_setLayer_OH]

/-- The hidden backward pass reads whatever output-layer weights its entry
state carries: running it on a state s equals the spec-worded variant with
weight source s. -/
theorem backPropagateHiddenLayer_reads_entry_state (M : CMath) (s : Network) (t : ℕ) :
    backPropagateHiddenLayer M s t = backPropagateHiddenLayerFrom M s s t := by
  rw [backPropagateHiddenLayer_eq, backPropagateHiddenLayerFrom_eq]
  rfl

/-! ### The immutable frame of a network -/

/-- Everything the spec declares immutable after construction: the six
stored byte sizes, the hyper parameters, the node count of every layer and
the weight count of every node (the map also fixes how many nodes each
layer holds). -/
def netFrame (nn : Network) :
    ℕ × ℕ × ℕ × ℕ × ℕ × ℕ × ℚ × ActFctType × ActFctType × ℕ × ℕ × ℕ
      × List ℕ × List ℕ × List ℕ :=
  (nn.inpNodeSize, nn.inpLayerSize, nn.hidNodeSize, nn.hidLayerSize,
   nn.outNodeSize, nn.outLayerSize, nn.learningRate,
   nn.hidLayerActType, nn.outLayerActType,
   nn.inputLayer.ncount, nn.hiddenLayer.ncount, nn.outputLayer.ncount,
   nn.inputLayer.nodes.map Node.wcount, nn.hiddenLayer.nodes.map Node.wcount,
   nn.outputLayer.nodes.map Node.wcount)

theorem netFrame_setLayer_setEach (nn : Network) (T : LayerType)
    (g : ℕ → Node → Node) (m : ℕ) (hg : ∀ i x, (g i x).wcount = x.wcount) :
    netFrame (setLayer nn T
      { getLayer nn T with nodes := setEach dfltNode g m (getLayer nn T).nodes })
      = netFrame nn := by
  have hmap : ∀ l : List Node, (setEach dfltNode g m l).map Node.wcount = l.map Node.wcount :=
    fun l => map_setEach dfltNode g Node.wcount hg m l
  cases T <;> simp [netFrame, setLayer, getLayer, hmap]

theorem netFrame_feedInput (nn : Network) (v : Vector) :
    netFrame (feedInput nn v) = netFrame nn := by
  rw [feedInput_eq]
  exact netFrame_setLayer_setEach nn INPUT _ v.size (fun i x => rfl)

theorem netFrame_calcLayer (M : CMath) (nn : Network) (T : LayerType) :
    netFrame (calcLayer M nn T) = netFrame nn := by
  rw [calcLayer_eq]
  exact netFrame_setLayer_setEach nn T _ (getLayer nn T).ncount (fun i x => rfl)

theorem netFrame_feedForwardNetwork (M : CMath) (nn : Network) :
    netFrame (feedForwardNetwork M nn) = netFrame nn := by
  unfold feedForwardNetwork
  rw [netFrame_calcLayer, netFrame_calcLayer]

theorem netFrame_backPropagateOutputLayer (M : CMath) (nn : Network) (t : ℕ) :
    netFrame (backPropagateOutputLayer M nn t) = netFrame nn := by
  rw [backPropagateOutputLayer_eq]
  exact netFrame_setLayer_setEach nn OUTPUT _ (getLayer nn OUTPUT).ncount (fun i x => rfl)

theorem netFrame_backPropagateHiddenLayer (M : CMath) (nn : Network) (t : ℕ) :
    netFrame (backPropagateHiddenLayer M nn t) = netFrame nn := by
  rw [backPropagateHiddenLayer_eq]
  exact netFrame_setLayer_setEach nn HIDDEN _ (getLayer nn HIDDEN).ncount (fun i x => rfl)

theorem netFrame_backPropagateNetwork (M : CMath) (nn : Network) (t : ℕ) :
    netFrame (backPropagateNetwork M nn t) = netFrame nn := by
  unfold backPropagateNetwork
  rw [netFrame_backPropagateHiddenLayer, netFrame_backPropagateOutputLayer]

/-- Pointwise reading of a batch layer update. -/
theorem getNode_batch (nn : Network) (T : LayerType) (g : ℕ → Node → Node) (m j : ℕ) :
    getNode (getLayer (setLayer nn T
        { getLayer nn T with nodes := setEach dfltNode g m (getLayer nn T).nodes }) T) j
      = if j < m ∧ j < (getLayer nn T).nodes.length
        then g j (getNode (getLayer nn T) j)
        else getNode (getLayer nn T) j := by
  rw [getLayer_setLayer_same]
  show (setEach dfltNode g m (getLayer nn T).nodes).getD j dfltNode = _
  rw [getD_setEach]
  rfl

@[simp] theorem prevLayerOf_INPUT (nn : Network) :
    prevLayerOf nn INPUT = getLayer nn HIDDEN := rfl

@[simp] theorem prevLayerOf_HIDDEN (nn : Network) :
    prevLayerOf nn HIDDEN = getLayer nn INPUT := rfl

@[simp] theorem prevLayerOf_OUTPUT (nn : Network) :
    prevLayerOf nn OUTPUT = getLayer nn HIDDEN := rfl

theorem updWeights_weights_getD (s : Network) (T : LayerType) (e : ℚ) (n : Node) (i : ℕ) :
    (updWeights s T e n).weights.getD i 0
      = if i < n.wcount ∧ i < n.weights.length
        then n.weights.getD i 0 + s.learningRate * (getNode (prevLayerOf s T) i).output * e
        else n.weights.getD i 0 := by
  show (setEach (0 : ℚ)
      (fun i w => w + s.learningRate * (getNode (prevLayerOf s T) i).output * e)
      n.wcount n.weights).getD i 0 = _
  rw [getD_setEach]

theorem getNode_updateNodeWeights_self (s : Network) (T : LayerType) (id : ℕ) (e : ℚ)
    (hid : id < (getLayer s T).nodes.length) :
    getNode (getLayer (updateNodeWeights s T id e) T) id
      = updWeights s T e (getNode (getLayer s T) id) := by
  rw [updateNodeWeights_eq, getLayer_setLayer_same]
  show ((getLayer s T).nodes.set id _).getD id dfltNode = _
  rw [getD_set, if_pos ⟨rfl, hid⟩]

theorem getNode_updateNodeWeights_other (s : Network) (T : LayerType) (id : ℕ) (e : ℚ)
    (j : ℕ) (hj : j ≠ id) :
    getNode (getLayer (updateNodeWeights s T id e) T) j = getNode (getLayer s T) j := by
  rw [updateNodeWeights_eq, getLayer_setLayer_same]
  show ((getLayer s T).nodes.set id _).getD j dfltNode = _
  rw [getD_set, if_neg (fun hc => hj hc.1.symm)]
  rfl

theorem map_wcount_set_upd (l : List Node) (id : ℕ) (f : Node → Node)
    (hf : ∀ n, (f n).wcount = n.wcount) :
    (l.set id (f (l.getD id dfltNode))).map Node.wcount = l.map Node.wcount := by
  rw [List.map_set, hf, ← getD_map Node.wcount l id dfltNode, set_getD_self]

theorem netFrame_updateNodeWeights (nn : Network) (T : LayerType) (id : ℕ) (e : ℚ) :
    netFrame (updateNodeWeights nn T id e) = netFrame nn := by
  rw [updateNodeWeights_eq]
  have hmap : ((getLayer nn T).nodes.set id
      (updWeights nn T e (getNode (getLayer nn T) id))).map Node.wcount
      = (getLayer nn T).nodes.map Node.wcount :=
    map_wcount_set_upd _ id (updWeights nn T e) (fun n => rfl)
  cases T
  all_goals
    simp only [netFrame, getLayer, setLayer, setNode] at hmap ⊢
    simp [hmap]

/-! ### Claim C4 -/

/-- Claim C4: updateNodeWeights adds learningRate * previousLayerNode[i].output
* errorSignal to every connection weight i of the updated node, adds
learningRate * errorSignal to its bias, and changes nothing else; in
particular a single weight w becomes exactly w + r*x*e. -/
theorem claim_C4 (nn : Network) (ltype : LayerType) (id : ℕ) (e : ℚ)
    (hid : id < (getLayer nn ltype).nodes.length)
    (hwf : (getNode (getLayer nn ltype) id).weights.length
      = (getNode (getLayer nn ltype) id).wcount) :
    (∀ i, i < (getNode (getLayer nn ltype) id).wcount →
        (getNode (getLayer (updateNodeWeights nn ltype id e) ltype) id).weights.getD i 0
          = (getNode (getLayer nn ltype) id).weights.getD i 0
            + nn.learningRate * (getNode (prevLayerOf nn ltype) i).output * e)
    ∧ (∀ i, (getNode (getLayer nn ltype) id).wcount ≤ i →
        (getNode (getLayer (updateNodeWeights nn ltype id e) ltype) id).weights.getD i 0
          = (getNode (getLayer nn ltype) id).weights.getD i 0)
    ∧ (getNode (getLayer (updateNodeWeights nn ltype id e) ltype) id).bias
        = (getNode (getLayer nn ltype) id).bias + nn.learningRate * 1 * e
    ∧ (getNode (getLayer (updateNodeWeights nn ltype id e) ltype) id).output
        = (getNode (getLayer nn ltype) id).output
    ∧ (getNode (getLayer (updateNodeWeights nn ltype id e) ltype) id).wcount
        = (getNode (getLayer nn ltype) id).wcount
    ∧ (∀ j, j ≠ id →
        getNode (getLayer (updateNodeWeights nn ltype id e) ltype) j
          = getNode (getLayer nn ltype) j)
    ∧ (∀ T2, T2 ≠ ltype → getLayer (updateNodeWeights nn ltype id e) T2 = getLayer nn T2)
    ∧ netFrame (updateNodeWeights nn ltype id e) = netFrame nn := by
  refine ⟨?_, ?_, ?_, ?_, ?_, ?_, ?_, ?_⟩
  · intro i hi
    rw [getNode_updateNodeWeights_self nn ltype id e hid, updWeights_weights_getD,
      if_pos ⟨hi, by rw [hwf]; exact hi⟩]
  · intro i hi
    rw [getNode_updateNodeWeights_self nn ltype id e hid, updWeights_weights_getD,
      if_neg (fun hc => absurd hc.1 (not_lt.mpr hi))]
  · rw [getNode_updateNodeWeights_self nn ltype id e hid]; rfl
  · rw [getNode_updateNodeWeights_self nn ltype id e hid]; rfl
  · rw [getNode_updateNodeWeights_self nn ltype id e hid]; rfl
  · exact fun j hj => getNode_updateNodeWeights_other nn ltype id e j hj
  · intro T2 hT2
    rw [updateNodeWeights_eq]
    cases ltype <;> cases T2 <;> first
      | exact absurd rfl hT2
      | simp
  · exact netFrame_updateNodeWeights nn ltype id e

/-- A concrete 1-1-1 network for exercising claim C4. -/
def nnW4 : Network :=
  { inpNodeSize := 24, inpLayerSize := 32, hidNodeSize := 32, hidLayerSize := 40,
    outNodeSize := 32, outLayerSize := 40,
    learningRate := 1, hidLayerActType := SIGMOID, outLayerActType := SIGMOID,
    inputLayer :=
      { ncount := 1, nodes := [{ bias := 0, output := 1, wcount := 0, weights := [] }] },
    hiddenLayer :=
      { ncount := 1, nodes := [{ bias := 0, output := 3, wcount := 1, weights := [1] }] },
    outputLayer :=
      { ncount := 1, nodes := [{ bias := 1/2, output := 2, wcount := 1, weights := [1/2] }] } }

theorem claim_C4_witness :
    (getNode (getLayer (updateNodeWeights nnW4 OUTPUT 0 1) OUTPUT) 0).weights.getD 0 0 = 7/2
    ∧ (getNode (getLayer (updateNodeWeights nnW4 OUTPUT 0 1) OUTPUT) 0).bias = 3/2 := by
  have h := claim_C4 nnW4 OUTPUT 0 1 (by decide) (by decide)
  refine ⟨?_, ?_⟩
  · rw [h.1 0 (by decide)]
    norm_num [nnW4, getNode, getLayer, prevLayerOf_OUTPUT]
  · rw [h.2.2.1]
    norm_num [nnW4, getNode, getLayer]

/-! ### Claims C5 and C10 -/

theorem getNode_feedInput (nn : Network) (v : Vector) (j : ℕ) :
    getNode (getLayer (feedInput nn v) INPUT) j
      = if j < v.size ∧ j < (getLayer nn INPUT).nodes.length
        then { getNode (getLayer nn INPUT) j with output := v.vals.getD j 0 }
        else getNode (getLayer nn INPUT) j := by
  rw [feedInput_eq]
  exact getNode_batch nn INPUT _ v.size j

/-- Claim C5: with a vector of matching length, feedInput copies each
vector element unchanged into the output of the corresponding input node. -/
theorem claim_C5 (nn : Network) (v : Vector)
    (hsz : v.size = (getLayer nn INPUT).ncount)
    (hlen : (getLayer nn INPUT).nodes.length = (getLayer nn INPUT).ncount)
    (hv : v.vals.length = v.size) :
    ∀ i, i < (getLayer nn INPUT).ncount →
      (getNode (getLayer (feedInput nn v) INPUT) i).output = v.vals.getD i 0 := by
  intro i hi
  rw [getNode_feedInput, if_pos ⟨by omega, by omega⟩]

theorem claim_C5_witness :
    (getNode (getLayer (feedInput nnW4 { size := 1, vals := [5] }) INPUT) 0).output = 5 := by
  have h := claim_C5 nnW4 { size := 1, vals := [5] } (by decide) (by decide) (by decide)
  rw [h 0 (by decide)]
  rfl

/-- A network with two input nodes for exercising the feedInput frame. -/
def nnW10 : Network :=
  { nnW4 with
      inputLayer :=
        { ncount := 2
          nodes := [{ bias := 0, output := 7, wcount := 0, weights := [] },
                    { bias := 0, output := 9, wcount := 0, weights := [] }] } }

/-- Claim C10: feedInput writes exactly the output fields of the first
vector.size input nodes; everything else, including the outputs of the
remaining input nodes, is unchanged. -/
theorem claim_C10 (nn : Network) (v : Vector)
    (hsz : v.size ≤ (getLayer nn INPUT).nodes.length) :
    (∀ i, i < v.size →
        getNode (getLayer (feedInput nn v) INPUT) i
          = { getNode (getLayer nn INPUT) i with output := v.vals.getD i 0 })
    ∧ (∀ i, v.size ≤ i →
        getNode (getLayer (feedInput nn v) INPUT) i = getNode (getLayer nn INPUT) i)
    ∧ (getLayer (feedInput nn v) INPUT).ncount = (getLayer nn INPUT).ncount
    ∧ (getLayer (feedInput nn v) INPUT).nodes.length = (getLayer nn INPUT).nodes.length
    ∧ getLayer (feedInput nn v) HIDDEN = getLayer nn HIDDEN
    ∧ getLayer (feedInput nn v) OUTPUT = getLayer nn OUTPUT
    ∧ netFrame (feedInput nn v) = netFrame nn := by
  refine ⟨?_, ?_, ?_, ?_, ?_, ?_, ?_⟩
  · intro i hi
    rw [getNode_feedInput, if_pos ⟨hi, lt_of_lt_of_le hi hsz⟩]
  · intro i hi
    rw [getNode_feedInput, if_neg (fun hc => absurd hc.1 (not_lt.mpr hi))]
  · rw [feedInput_eq, getLayer_setLayer_same]
  · rw [feedInput_eq, getLayer_setLayer_same]
    show (setEach dfltNode (fun i n => { n with output := v.vals.getD i 0 })
      v.size (getLayer nn INPUT).nodes).length = (getLayer nn INPUT).nodes.length
    exact length_setEach _ _ _ _
  · rw [feedInput_eq, getLayer_setLayer_HI]
  · rw [feedInput_eq, getLayer_setLayer_OI]
  · exact netFrame_feedInput nn v

theorem claim_C10_witness :
    (getNode (getLayer (feedInput nnW10 { size := 1, vals := [4] }) INPUT) 0).output = 4
    ∧ (getNode (getLayer (feedInput nnW10 { size := 1, vals := [4] }) INPUT) 1).output = 9
    ∧ getLayer (feedInput nnW10 { size := 1, vals := [4] }) HIDDEN = getLayer nnW10 HIDDEN := by
  have h := claim_C10 nnW10 { size := 1, vals := [4] } (by decide)
  refine ⟨?_, ?_, h.2.2.2.2.1⟩
  · rw [h.1 0 (by decide)]
    rfl
  · rw [h.2.1 1 (by decide)]
    rfl

/-! ### Claim C3 -/

theorem calcNodeOutput_eq (nn : Network) (lt : LayerType) (id : ℕ) :
    calcNodeOutput nn lt id
      = setLayer nn lt (setNode (getLayer nn lt) id
          { getNode (getLayer nn lt) id with
              output := calcNodeVal nn lt (getNode (getLayer nn lt) id) }) := by
  unfold calcNodeOutput
  simp only [foldl_add_range]
  rfl

theorem getNode_calcNodeOutput_self (nn : Network) (lt : LayerType) (id : ℕ)
    (hid : id < (getLayer nn lt).nodes.length) :
    getNode (getLayer (calcNodeOutput nn lt id) lt) id
      = { getNode (getLayer nn lt) id with
          output := calcNodeVal nn lt (getNode (getLayer nn lt) id) } := by
  rw [calcNodeOutput_eq, getLayer_setLayer_same]
  show ((getLayer nn lt).nodes.set id _).getD id dfltNode = _
  rw [getD_set, if_pos ⟨rfl, hid⟩]

theorem getNode_calcLayer (M : CMath) (nn : Network) (T : LayerType) (j : ℕ) :
    getNode (getLayer (calcLayer M nn T) T) j
      = if j < (getLayer nn T).ncount ∧ j < (getLayer nn T).nodes.length
        then { getNode (getLayer nn T) j with
            output := actApply M nn T (calcNodeVal nn T (getNode (getLayer nn T) j)) }
        else getNode (getLayer nn T) j := by
  rw [calcLayer_eq]
  exact getNode_batch nn T _ _ j

theorem getLayer_calcLayer_OH (M : CMath) (nn : Network) :
    getLayer (calcLayer M nn HIDDEN) OUTPUT = getLayer nn OUTPUT := by
  rw [calcLayer_eq, getLayer_setLayer_OH]

/-- Claim C3: calcNodeOutput sets the output of the addressed node to its
bias plus the sum of previous-layer outputs times its weights, where the
previous layer of HIDDEN is INPUT and of OUTPUT is HIDDEN; and
feedForwardNetwork computes and activates the whole hidden layer before any
output node is computed, so each output node reads the activated
post-hidden-pass state. -/
theorem claim_C3 (M : CMath) (nn : Network)
    (hhl : (getLayer nn HIDDEN).nodes.length = (getLayer nn HIDDEN).ncount)
    (hol : (getLayer nn OUTPUT).nodes.length = (getLayer nn OUTPUT).ncount) :
    (∀ ltype id, id < (getLayer nn ltype).nodes.length →
        (getNode (getLayer (calcNodeOutput nn ltype id) ltype) id).output
          = (getNode (getLayer nn ltype) id).bias
            + ∑ i ∈ Finset.range (prevLayerOf nn ltype).ncount,
                (getNode (prevLayerOf nn ltype) i).output
                  * (getNode (getLayer nn ltype) id).weights.getD i 0)
    ∧ prevLayerOf nn HIDDEN = getLayer nn INPUT
    ∧ prevLayerOf nn OUTPUT = getLayer nn HIDDEN
    ∧ feedForwardNetwork M nn = calcLayer M (calcLayer M nn HIDDEN) OUTPUT
    ∧ (∀ j, j < (getLayer nn HIDDEN).ncount →
        getNode (getLayer (calcLayer M nn HIDDEN) HIDDEN) j
          = { getNode (getLayer nn HIDDEN) j with
              output := actApply M nn HIDDEN
                (calcNodeVal nn HIDDEN (getNode (getLayer nn HIDDEN) j)) })
    ∧ getLayer (calcLayer M nn HIDDEN) OUTPUT = getLayer nn OUTPUT
    ∧ (∀ k, k < (getLayer nn OUTPUT).ncount →
        getNode (getLayer (feedForwardNetwork M nn) OUTPUT) k
          = { getNode (getLayer nn OUTPUT) k with
              output := actApply M (calcLayer M nn HIDDEN) OUTPUT
                (calcNodeVal (calcLayer M nn HIDDEN) OUTPUT
                  (getNode (getLayer nn OUTPUT) k)) }) := by
  refine ⟨?_, rfl, rfl, rfl, ?_, getLayer_calcLayer_OH M nn, ?_⟩
  · intro ltype id hid
    rw [getNode_calcNodeOutput_self nn ltype id hid]
    rfl
  · intro j hj
    rw [getNode_calcLayer, if_pos ⟨hj, by omega⟩]
  · intro k hk
    have h6 := getLayer_calcLayer_OH M nn
    show getNode (getLayer (calcLayer M (calcLayer M nn HIDDEN) OUTPUT) OUTPUT) k = _
    rw [getNode_calcLayer, h6, if_pos ⟨hk, by omega⟩]

/-- The abstract libm functions instantiated for concrete evaluation. -/
def MW3 : CMath := { tanh := fun x => x, exp := fun _ => 1 }

theorem out_ne_hid : (OUTPUT = HIDDEN) = False := eq_false (fun h => nomatch h)

theorem sig_ne_tanh : (SIGMOID = TANH) = False := eq_false (fun h => nomatch h)

theorem claim_C3_witness :
    (getNode (getLayer (calcNodeOutput nnW4 OUTPUT 0) OUTPUT) 0).output = 2
    ∧ (getNode (getLayer (feedForwardNetwork MW3 nnW4) OUTPUT) 0).output = 1/2 := by
  have h := claim_C3 MW3 nnW4 (by decide) (by decide)
  constructor
  · rw [h.1 OUTPUT 0 (by decide)]
    norm_num [nnW4, getNode, getLayer, prevLayerOf_OUTPUT]
  · rw [h.2.2.2.2.2.2 0 (by decide)]
    norm_num [nnW4, MW3, getNode, getLayer, setNode, setLayer, prevLayerOf,
      calcLayer, calcNodeOutput, activateNode, actApply, calcNodeVal,
      List.range_succ, dfltNode, out_ne_hid, sig_ne_tanh]

/-! ### Claim C1 -/

/-- A 1-1-1 network on which the backward pass is computed concretely. -/
def nnC1 : Network :=
  { inpNodeSize := 24, inpLayerSize := 32, hidNodeSize := 32, hidLayerSize := 40,
    outNodeSize := 32, outLayerSize := 40,
    learningRate := 1, hidLayerActType := SIGMOID, outLayerActType := SIGMOID,
    inputLayer :=
      { ncount := 1, nodes := [{ bias := 0, output := 1, wcount := 0, weights := [] }] },
    hiddenLayer :=
      { ncount := 1, nodes := [{ bias := 0, output := 2, wcount := 1, weights := [1] }] },
    outputLayer :=
      { ncount := 1, nodes := [{ bias := 0, output := 2, wcount := 1, weights := [1] }] } }

/-- Claim C1 as stated is false: on nnC1 with target 0, the hidden weight
produced by backPropagateNetwork differs from the one produced when the
backpropagated error sum reads the pre-update output-layer weights (the
spec-worded variant with weight source nnC1).  The code reads the weights
the output-layer update of the same backward pass has already changed. -/
theorem claim_C1_counterexample :
    (getNode (getLayer (backPropagateNetwork MW3 nnC1 0) HIDDEN) 0).weights.getD 0 0
      ≠ (getNode (getLayer
            (backPropagateHiddenLayerFrom MW3 nnC1 (backPropagateOutputLayer MW3 nnC1 0) 0)
            HIDDEN) 0).weights.getD 0 0 := by
  norm_num [backPropagateNetwork, backPropagateHiddenLayer, backPropagateHiddenLayerFrom,
    backPropagateOutputLayer, updateNodeWeights, getActFctDerivative, getNode, getLayer,
    setNode, setLayer, prevLayerOf, nnC1, MW3, List.range_succ, dfltNode,
    out_ne_hid, sig_ne_tanh]

/-- Claim C1, amended: the ordering is output-layer update first, then the
hidden pass, and consequently the hidden error sum
(errorSignal(o) x outputNode[o].weight[h]) reads the output layer weights
as already adjusted by the output-layer update of the same backward pass
(the post-update weights), not the weights active during the forward
pass. -/
theorem claim_C1_amended (M : CMath) (nn : Network) (t : ℕ) :
    backPropagateNetwork M nn t
      = backPropagateHiddenLayerFrom M (backPropagateOutputLayer M nn t)
          (backPropagateOutputLayer M nn t) t :=
  backPropagateHiddenLayer_reads_entry_state M (backPropagateOutputLayer M nn t) t

/-! ### Claim C2 -/

/-- The running-maximum scan of getNetworkClassification over an abstract
output sequence. -/
def classifyFold (outs : ℕ → ℚ) (n : ℕ) : ℚ × ℕ :=
  (List.range n).foldl (fun p i => if p.1 < outs i then (outs i, i) else p) ((0 : ℚ), (0 : ℕ))

theorem classifyFold_spec (outs : ℕ → ℚ) (n : ℕ) :
    0 ≤ (classifyFold outs n).1
    ∧ ((classifyFold outs n).1 = 0 ∧ (classifyFold outs n).2 = 0
        ∨ ((classifyFold outs n).2 < n
            ∧ outs (classifyFold outs n).2 = (classifyFold outs n).1
            ∧ 0 < (classifyFold outs n).1))
    ∧ ∀ j, j < n → outs j ≤ (classifyFold outs n).1 := by
  induction n with
  | zero => exact ⟨le_refl 0, Or.inl ⟨rfl, rfl⟩, fun j hj => absurd hj (Nat.not_lt_zero j)⟩
  | succ n ih =>
    have hstep : classifyFold outs (n + 1)
        = if (classifyFold outs n).1 < outs n then (outs n, n) else classifyFold outs n := by
      unfold classifyFold
      rw [List.range_succ, List.foldl_append, List.foldl_cons, List.foldl_nil]
    obtain ⟨h0, hdisj, hub⟩ := ih
    by_cases hc : (classifyFold outs n).1 < outs n
    · rw [hstep, if_pos hc]
      refine ⟨le_of_lt (lt_of_le_of_lt h0 hc),
        Or.inr ⟨Nat.lt_succ_self n, rfl, lt_of_le_of_lt h0 hc⟩, ?_⟩
      intro j hj
      rcases Nat.lt_succ_iff_lt_or_eq.mp hj with hj2 | hj2
      · exact le_of_lt (lt_of_le_of_lt (hub j hj2) hc)
      · subst hj2; exact le_refl _
    · rw [hstep, if_neg hc]
      refine ⟨h0, ?_, ?_⟩
      · rcases hdisj with h | h
        · exact Or.inl h
        · exact Or.inr ⟨Nat.lt_succ_of_lt h.1, h.2.1, h.2.2⟩
      · intro j hj
        rcases Nat.lt_succ_iff_lt_or_eq.mp hj with hj2 | hj2
        · exact hub j hj2
        · subst hj2; exact le_of_not_lt hc

/-- Two-output network with every output negative: node 1 strictly exceeds
node 0, yet the zero-initialised running maximum never moves. -/
def nnC2 : Network :=
  { nnW4 with
      outputLayer :=
        { ncount := 2
          nodes := [{ bias := 0, output := -2, wcount := 0, weights := [] },
                    { bias := 0, output := -1, wcount := 0, weights := [] }] } }

/-- Two-output network with a positive strict maximum at index 1. -/
def nnC2a : Network :=
  { nnW4 with
      outputLayer :=
        { ncount := 2
          nodes := [{ bias := 0, output := 1, wcount := 0, weights := [] },
                    { bias := 0, output := 3, wcount := 0, weights := [] }] } }

/-- Claim C2 as stated is false: in nnC2 the output of node 1 strictly
exceeds the output of every other node, yet getNetworkClassification
returns 0, because every output is below the zero-initialised running
maximum. -/
theorem claim_C2_counterexample :
    (getNode (getLayer nnC2 OUTPUT) 0).output < (getNode (getLayer nnC2 OUTPUT) 1).output
    ∧ getNetworkClassification nnC2 ≠ 1
    ∧ getNetworkClassification nnC2 = 0 := by
  refine ⟨by norm_num [nnC2, nnW4, getNode, getLayer], ?_, ?_⟩ <;>
    norm_num [getNetworkClassification, nnC2, nnW4, getNode, getLayer,
      List.range_succ, dfltNode]

/-- Claim C2, amended: getNetworkClassification scans the output nodes in
index order with a running maximum initialised to zero and a strictly
greater comparison; consequently, if one output node strictly exceeds all
others and its output is strictly positive, it returns the index of that node,
and if every output is at most 0 it returns index 0. -/
theorem claim_C2_amended (nn : Network) :
    (∀ k, k < (getLayer nn OUTPUT).ncount →
        0 < (getNode (getLayer nn OUTPUT) k).output →
        (∀ j, j < (getLayer nn OUTPUT).ncount → j ≠ k →
          (getNode (getLayer nn OUTPUT) j).output < (getNode (getLayer nn OUTPUT) k).output) →
        getNetworkClassification nn = k)
    ∧ ((∀ j, j < (getLayer nn OUTPUT).ncount → (getNode (getLayer nn OUTPUT) j).output ≤ 0) →
        getNetworkClassification nn = 0) := by
  have hcls : getNetworkClassification nn
      = (classifyFold (fun i => (getNode (getLayer nn OUTPUT) i).output)
          (getLayer nn OUTPUT).ncount).2 := rfl
  obtain ⟨h0, hdisj, hub⟩ :=
    classifyFold_spec (fun i => (getNode (getLayer nn OUTPUT) i).output)
      (getLayer nn OUTPUT).ncount
  constructor
  · intro k hk hkpos hmax
    have hk1 := hub k hk
    have hfstpos : 0 < (classifyFold (fun i => (getNode (getLayer nn OUTPUT) i).output)
        (getLayer nn OUTPUT).ncount).1 := lt_of_lt_of_le hkpos hk1
    rcases hdisj with h | h
    · rw [h.1] at hfstpos
      exact absurd hfstpos (lt_irrefl 0)
    · by_cases hek : (classifyFold (fun i => (getNode (getLayer nn OUTPUT) i).output)
          (getLayer nn OUTPUT).ncount).2 = k
      · rw [hcls, hek]
      · exact absurd (lt_of_lt_of_le (hmax _ h.1 hek)
          (le_trans hk1 (le_of_eq h.2.1.symm))) (lt_irrefl _)
  · intro hall
    rcases hdisj with h | h
    · rw [hcls, h.2]
    · exact absurd h.2.2 (not_lt.mpr (h.2.1 ▸ hall _ h.1))

theorem claim_C2_witness :
    getNetworkClassification nnC2a = 1 ∧ getNetworkClassification nnC2 = 0 := by
  constructor
  · refine (claim_C2_amended nnC2a).1 1 (by decide)
      (by norm_num [nnC2a, nnW4, getNode, getLayer]) ?_
    intro j hj hne
    have hj0 : j = 0 := by
      have : j < 2 := hj
      omega
    subst hj0
    norm_num [nnC2a, nnW4, getNode, getLayer]
  · refine (claim_C2_amended nnC2).2 ?_
    intro j hj
    have hj2 : j = 0 ∨ j = 1 := by
      have : j < 2 := hj
      omega
    rcases hj2 with hj2 | hj2 <;> subst hj2 <;>
      norm_num [nnC2, nnW4, getNode, getLayer]

/-! ### Claim C9 -/

/-- Claim C9: after construction, the operations of the network mutate only
the output, bias and weights fields of nodes: every per-node weight count,
per-layer node count, the six stored byte sizes (and the learning rate and
activation choices) are preserved by feedInput, feedForwardNetwork and
backPropagateNetwork.  getNetworkClassification is a pure reader in the
model (Network to Nat) and touches no state. -/
theorem claim_C9 (M : CMath) (nn : Network) (v : Vector) (t : ℕ) :
    netFrame (feedInput nn v) = netFrame nn
    ∧ netFrame (feedForwardNetwork M nn) = netFrame nn
    ∧ netFrame (backPropagateNetwork M nn t) = netFrame nn :=
  ⟨netFrame_feedInput nn v, netFrame_feedForwardNetwork M nn,
    netFrame_backPropagateNetwork M nn t⟩

/-! ### The builder characterised -/

theorem getD_replicate {α : Type} (x d : α) (n j : ℕ) :
    (List.replicate n x).getD j d = if j < n then x else d := by
  rw [List.getD_eq_getElem?_getD, List.getElem?_replicate]
  by_cases hj : j < n <;> simp [hj]

theorem forall_mem_of_getD {α : Type} (l : List α) (d : α) (P : α → Prop)
    (h : ∀ j, j < l.length → P (l.getD j d)) : ∀ x ∈ l, P x := by
  intro x hx
  obtain ⟨j, hj, hx2⟩ := List.mem_iff_getElem.mp hx
  have h2 := h j hj
  rw [List.getD_eq_getElem?_getD, List.getElem?_eq_getElem hj] at h2
  rw [← hx2]
  exact h2

/-- The network state just before the two initWeights passes of
createNetwork: sizes stored, layers populated, defaults set. -/
def nnPre (C : CSizes) (inpCount hidCount outCount : ℕ) : Network :=
  { inpNodeSize := C.szNode
    inpLayerSize := C.szLayer + inpCount * C.szNode
    hidNodeSize := C.szNode + inpCount * C.szDouble
    hidLayerSize := C.szLayer + hidCount * (C.szNode + inpCount * C.szDouble)
    outNodeSize := C.szNode + hidCount * C.szDouble
    outLayerSize := C.szLayer + outCount * (C.szNode + hidCount * C.szDouble)
    learningRate := 0.2
    hidLayerActType := SIGMOID
    outLayerActType := SIGMOID
    inputLayer := createInputLayer inpCount
    hiddenLayer := createLayer hidCount inpCount
    outputLayer := createLayer outCount hidCount }

theorem createNetwork_eq (C : CSizes) (RM : ℕ) (rnd : ℕ → ℕ) (i h o : ℕ) :
    createNetwork C RM rnd i h o
      = initWeights RM rnd (randConsumption (createLayer h i))
          (initWeights RM rnd 0 (nnPre C i h o) HIDDEN) OUTPUT := rfl

theorem initWeights_eq (RM : ℕ) (rnd : ℕ → ℕ) (k0 : ℕ) (nn : Network) (lt : LayerType) :
    initWeights RM rnd k0 nn lt = setLayer nn lt
      { getLayer nn lt with
          nodes := setEach dfltNode
            (fun o2 x => initWeightsNode RM rnd
              (k0 + ∑ j2 ∈ Finset.range o2,
                (((getLayer nn lt).nodes.getD j2 dfltNode).wcount + 1))
              o2 x)
            (getLayer nn lt).ncount (getLayer nn lt).nodes } := rfl

theorem createNetwork_input_layer (C : CSizes) (RM : ℕ) (rnd : ℕ → ℕ) (i h o : ℕ) :
    getLayer (createNetwork C RM rnd i h o) INPUT = createInputLayer i := by
  rw [createNetwork_eq, initWeights_eq, initWeights_eq,
    getLayer_setLayer_IO, getLayer_setLayer_IH]
  rfl

theorem createNetwork_hidden_layer (C : CSizes) (RM : ℕ) (rnd : ℕ → ℕ) (i h o : ℕ) :
    getLayer (createNetwork C RM rnd i h o) HIDDEN
      = { ncount := h
          nodes := setEach dfltNode
            (fun o2 x => initWeightsNode RM rnd
              (0 + ∑ j2 ∈ Finset.range o2,
                (((createLayer h i).nodes.getD j2 dfltNode).wcount + 1))
              o2 x)
            h (createLayer h i).nodes } := by
  rw [createNetwork_eq, initWeights_eq, initWeights_eq,
    getLayer_setLayer_HO, getLayer_setLayer_same]
  rfl

theorem createNetwork_output_layer (C : CSizes) (RM : ℕ) (rnd : ℕ → ℕ) (i h o : ℕ) :
    getLayer (createNetwork C RM rnd i h o) OUTPUT
      = { ncount := o
          nodes := setEach dfltNode
            (fun o2 x => initWeightsNode RM rnd
              (randConsumption (createLayer h i) + ∑ j2 ∈ Finset.range o2,
                (((createLayer o h).nodes.getD j2 dfltNode).wcount + 1))
              o2 x)
            o (createLayer o h).nodes } := by
  rw [createNetwork_eq, initWeights_eq, getLayer_setLayer_same, initWeights_eq,
    getLayer_setLayer_OH]
  rfl

theorem createNetwork_sizes (C : CSizes) (RM : ℕ) (rnd : ℕ → ℕ) (i h o : ℕ) :
    (createNetwork C RM rnd i h o).inpNodeSize = C.szNode
    ∧ (createNetwork C RM rnd i h o).inpLayerSize = C.szLayer + i * C.szNode
    ∧ (createNetwork C RM rnd i h o).hidNodeSize = C.szNode + i * C.szDouble
    ∧ (createNetwork C RM rnd i h o).hidLayerSize
        = C.szLayer + h * (C.szNode + i * C.szDouble)
    ∧ (createNetwork C RM rnd i h o).outNodeSize = C.szNode + h * C.szDouble
    ∧ (createNetwork C RM rnd i h o).outLayerSize
        = C.szLayer + o * (C.szNode + h * C.szDouble) := by
  rw [createNetwork_eq, initWeights_eq, initWeights_eq]
  simp only [inpNodeSize_setLayer, inpLayerSize_setLayer, hidNodeSize_setLayer,
    hidLayerSize_setLayer, outNodeSize_setLayer, outLayerSize_setLayer]
  exact ⟨rfl, rfl, rfl, rfl, rfl, rfl⟩

theorem createNetwork_hidden_node (C : CSizes) (RM : ℕ) (rnd : ℕ → ℕ) (i h o : ℕ)
    (j : ℕ) (hj : j < h) :
    getNode (getLayer (createNetwork C RM rnd i h o) HIDDEN) j
      = initWeightsNode RM rnd
          (0 + ∑ j2 ∈ Finset.range j,
            (((createLayer h i).nodes.getD j2 dfltNode).wcount + 1))
          j { bias := 0, output := 0, wcount := i, weights := List.replicate i 0 } := by
  rw [createNetwork_hidden_layer]
  show (setEach dfltNode _ h (createLayer h i).nodes).getD j dfltNode = _
  have hlen : (createLayer h i).nodes.length = h := by simp [createLayer]
  rw [getD_setEach, if_pos ⟨hj, by rw [hlen]; exact hj⟩]
  have hrep : (createLayer h i).nodes.getD j dfltNode
      = { bias := 0, output := 0, wcount := i, weights := List.replicate i 0 } := by
    show (List.replicate h _).getD j dfltNode = _
    rw [getD_replicate, if_pos hj]
  rw [hrep]

theorem createNetwork_output_node (C : CSizes) (RM : ℕ) (rnd : ℕ → ℕ) (i h o : ℕ)
    (j : ℕ) (hj : j < o) :
    getNode (getLayer (createNetwork C RM rnd i h o) OUTPUT) j
      = initWeightsNode RM rnd
          (randConsumption (createLayer h i) + ∑ j2 ∈ Finset.range j,
            (((createLayer o h).nodes.getD j2 dfltNode).wcount + 1))
          j { bias := 0, output := 0, wcount := h, weights := List.replicate h 0 } := by
  rw [createNetwork_output_layer]
  show (setEach dfltNode _ o (createLayer o h).nodes).getD j dfltNode = _
  have hlen : (createLayer o h).nodes.length = o := by simp [createLayer]
  rw [getD_setEach, if_pos ⟨hj, by rw [hlen]; exact hj⟩]
  have hrep : (createLayer o h).nodes.getD j dfltNode
      = { bias := 0, output := 0, wcount := h, weights := List.replicate h 0 } := by
    show (List.replicate o _).getD j dfltNode = _
    rw [getD_replicate, if_pos hj]
  rw [hrep]

theorem createNetwork_input_node (C : CSizes) (RM : ℕ) (rnd : ℕ → ℕ) (i h o : ℕ)
    (j : ℕ) (hj : j < i) :
    getNode (getLayer (createNetwork C RM rnd i h o) INPUT) j
      = { bias := 0, output := 0, wcount := 0, weights := [] } := by
  rw [createNetwork_input_layer]
  show (List.replicate i _).getD j dfltNode = _
  rw [getD_replicate, if_pos hj]

@[simp] theorem initWeightsNode_wcount (RM : ℕ) (rnd : ℕ → ℕ) (k o : ℕ) (n : Node) :
    (initWeightsNode RM rnd k o n).wcount = n.wcount := rfl

@[simp] theorem initWeightsNode_output (RM : ℕ) (rnd : ℕ → ℕ) (k o : ℕ) (n : Node) :
    (initWeightsNode RM rnd k o n).output = n.output := rfl

theorem initWeightsNode_bias (RM : ℕ) (rnd : ℕ → ℕ) (k o : ℕ) (n : Node) :
    (initWeightsNode RM rnd k o n).bias
      = if o % 2 = 1 then -((rnd (k + n.wcount) : ℚ) / (RM : ℚ))
        else ((rnd (k + n.wcount) : ℚ) / (RM : ℚ)) := rfl

theorem initWeightsNode_weights (RM : ℕ) (rnd : ℕ → ℕ) (k o : ℕ) (n : Node) :
    (initWeightsNode RM rnd k o n).weights
      = setEach (0 : ℚ) (fun i _ => drawWeight RM rnd (k + i) i) n.wcount n.weights := rfl

theorem initWeightsNode_weights_getD (RM : ℕ) (rnd : ℕ → ℕ) (k o : ℕ) (n : Node)
    (hwf : n.weights.length = n.wcount) (wi : ℕ) (hwi : wi < n.wcount) :
    (initWeightsNode RM rnd k o n).weights.getD wi 0 = drawWeight RM rnd (k + wi) wi := by
  rw [initWeightsNode_weights, getD_setEach, if_pos ⟨hwi, by omega⟩]

/-! ### Claim C6 -/

/-- Claim C6: for positive requested counts, createNetwork yields layers
whose node counts equal the requested counts; input nodes have weight count
zero, hidden nodes have weight count inpCount, output nodes have weight
count hidCount, and within each layer every node has the identical byte
size sizeof(Node) + wcount * sizeof(double). -/
theorem claim_C6 (C : CSizes) (RM : ℕ) (rnd : ℕ → ℕ) (i h o : ℕ)
    (hi : 0 < i) (hh : 0 < h) (ho : 0 < o) :
    (getLayer (createNetwork C RM rnd i h o) INPUT).ncount = i
    ∧ (getLayer (createNetwork C RM rnd i h o) HIDDEN).ncount = h
    ∧ (getLayer (createNetwork C RM rnd i h o) OUTPUT).ncount = o
    ∧ (getLayer (createNetwork C RM rnd i h o) INPUT).nodes.length = i
    ∧ (getLayer (createNetwork C RM rnd i h o) HIDDEN).nodes.length = h
    ∧ (getLayer (createNetwork C RM rnd i h o) OUTPUT).nodes.length = o
    ∧ (∀ n ∈ (getLayer (createNetwork C RM rnd i h o) INPUT).nodes, n.wcount = 0)
    ∧ (∀ n ∈ (getLayer (createNetwork C RM rnd i h o) HIDDEN).nodes, n.wcount = i)
    ∧ (∀ n ∈ (getLayer (createNetwork C RM rnd i h o) OUTPUT).nodes, n.wcount = h)
    ∧ (∀ T : LayerType, ∀ n1 n2 : Node,
        n1 ∈ (getLayer (createNetwork C RM rnd i h o) T).nodes →
        n2 ∈ (getLayer (createNetwork C RM rnd i h o) T).nodes →
        C.szNode + n1.wcount * C.szDouble = C.szNode + n2.wcount * C.szDouble) := by
  have hinlen : (getLayer (createNetwork C RM rnd i h o) INPUT).nodes.length = i := by
    rw [createNetwork_input_layer]
    simp [createInputLayer]
  have hhlen : (getLayer (createNetwork C RM rnd i h o) HIDDEN).nodes.length = h := by
    rw [createNetwork_hidden_layer]
    simp [createLayer]
  have holen : (getLayer (createNetwork C RM rnd i h o) OUTPUT).nodes.length = o := by
    rw [createNetwork_output_layer]
    simp [createLayer]
  have hinw : ∀ n ∈ (getLayer (createNetwork C RM rnd i h o) INPUT).nodes, n.wcount = 0 := by
    refine forall_mem_of_getD _ dfltNode _ ?_
    intro j hj
    rw [hinlen] at hj
    show (getNode (getLayer (createNetwork C RM rnd i h o) INPUT) j).wcount = 0
    rw [createNetwork_input_node C RM rnd i h o j hj]
  have hhw : ∀ n ∈ (getLayer (createNetwork C RM rnd i h o) HIDDEN).nodes, n.wcount = i := by
    refine forall_mem_of_getD _ dfltNode _ ?_
    intro j hj
    rw [hhlen] at hj
    show (getNode (getLayer (createNetwork C RM rnd i h o) HIDDEN) j).wcount = i
    rw [createNetwork_hidden_node C RM rnd i h o j hj]
    rfl
  have how : ∀ n ∈ (getLayer (createNetwork C RM rnd i h o) OUTPUT).nodes, n.wcount = h := by
    refine forall_mem_of_getD _ dfltNode _ ?_
    intro j hj
    rw [holen] at hj
    show (getNode (getLayer (createNetwork C RM rnd i h o) OUTPUT) j).wcount = h
    rw [createNetwork_output_node C RM rnd i h o j hj]
    rfl
  refine ⟨?_, ?_, ?_, hinlen, hhlen, holen, hinw, hhw, how, ?_⟩
  · rw [createNetwork_input_layer]
    rfl
  · rw [createNetwork_hidden_layer]
  · rw [createNetwork_output_layer]
  · intro T n1 n2 h1 h2
    cases T
    · rw [hinw n1 h1, hinw n2 h2]
    · rw [hhw n1 h1, hhw n2 h2]
    · rw [how n1 h1, how n2 h2]

theorem claim_C6_witness :
    (getLayer (createNetwork ⟨24, 8, 8⟩ 1 (fun _ => 0) 2 1 1) INPUT).ncount = 2
    ∧ (getLayer (createNetwork ⟨24, 8, 8⟩ 1 (fun _ => 0) 2 1 1) HIDDEN).ncount = 1
    ∧ (getLayer (createNetwork ⟨24, 8, 8⟩ 1 (fun _ => 0) 2 1 1) OUTPUT).ncount = 1 := by
  have hc := claim_C6 ⟨24, 8, 8⟩ 1 (fun _ => 0) 2 1 1 (by decide) (by decide) (by decide)
  exact ⟨hc.1, hc.2.1, hc.2.2.1⟩

/-! ### Claim C7 -/

/-- Claim C7: the addressing protocol puts the input layer at the start of
the layer region, the hidden layer input-layer-size bytes past it, the
output layer input-layer-size + hidden-layer-size past it; and a node at
index idx lives idx * (uniform node size) bytes into its layer, with no
bounds checking (the formulas hold for every index). -/
theorem claim_C7 (C : CSizes) (RM : ℕ) (rnd : ℕ → ℕ) (i h o : ℕ)
    (hi : 0 < i) (hh : 0 < h) (ho : 0 < o) :
    getLayerOffset (createNetwork C RM rnd i h o) INPUT = 0
    ∧ getLayerOffset (createNetwork C RM rnd i h o) HIDDEN
        = (createNetwork C RM rnd i h o).inpLayerSize
    ∧ getLayerOffset (createNetwork C RM rnd i h o) OUTPUT
        = (createNetwork C RM rnd i h o).inpLayerSize
          + (createNetwork C RM rnd i h o).hidLayerSize
    ∧ (createNetwork C RM rnd i h o).inpLayerSize = C.szLayer + i * C.szNode
    ∧ (createNetwork C RM rnd i h o).hidLayerSize
        = C.szLayer + h * (C.szNode + i * C.szDouble)
    ∧ (∀ idx : ℕ, getNodeOffset C (getLayer (createNetwork C RM rnd i h o) INPUT) idx
        = idx * (createNetwork C RM rnd i h o).inpNodeSize)
    ∧ (∀ idx : ℕ, getNodeOffset C (getLayer (createNetwork C RM rnd i h o) HIDDEN) idx
        = idx * (createNetwork C RM rnd i h o).hidNodeSize)
    ∧ (∀ idx : ℕ, getNodeOffset C (getLayer (createNetwork C RM rnd i h o) OUTPUT) idx
        = idx * (createNetwork C RM rnd i h o).outNodeSize) := by
  obtain ⟨hs1, hs2, hs3, hs4, hs5, hs6⟩ := createNetwork_sizes C RM rnd i h o
  refine ⟨rfl, rfl, rfl, hs2, hs4, ?_, ?_, ?_⟩
  · intro idx
    have h0 : ((getLayer (createNetwork C RM rnd i h o) INPUT).nodes.getD 0 dfltNode).wcount
        = 0 := by
      show (getNode (getLayer (createNetwork C RM rnd i h o) INPUT) 0).wcount = 0
      rw [createNetwork_input_node C RM rnd i h o 0 hi]
    unfold getNodeOffset
    rw [h0, hs1]
    simp
  · intro idx
    have h0 : ((getLayer (createNetwork C RM rnd i h o) HIDDEN).nodes.getD 0 dfltNode).wcount
        = i := by
      show (getNode (getLayer (createNetwork C RM rnd i h o) HIDDEN) 0).wcount = i
      rw [createNetwork_hidden_node C RM rnd i h o 0 hh]
      rfl
    unfold getNodeOffset
    rw [h0, hs3]
  · intro idx
    have h0 : ((getLayer (createNetwork C RM rnd i h o) OUTPUT).nodes.getD 0 dfltNode).wcount
        = h := by
      show (getNode (getLayer (createNetwork C RM rnd i h o) OUTPUT) 0).wcount = h
      rw [createNetwork_output_node C RM rnd i h o 0 ho]
      rfl
    unfold getNodeOffset
    rw [h0, hs5]

theorem claim_C7_witness :
    getLayerOffset (createNetwork ⟨24, 8, 8⟩ 1 (fun _ => 0) 2 1 1) HIDDEN
      = (createNetwork ⟨24, 8, 8⟩ 1 (fun _ => 0) 2 1 1).inpLayerSize
    ∧ (∀ idx : ℕ,
        getNodeOffset ⟨24, 8, 8⟩ (getLayer (createNetwork ⟨24, 8, 8⟩ 1 (fun _ => 0) 2 1 1) HIDDEN) idx
          = idx * (createNetwork ⟨24, 8, 8⟩ 1 (fun _ => 0) 2 1 1).hidNodeSize)
    ∧ getNodeOffset ⟨24, 8, 8⟩ (getLayer (createNetwork ⟨24, 8, 8⟩ 1 (fun _ => 0) 2 1 1) HIDDEN) 5
      = 200 := by
  have hc := claim_C7 ⟨24, 8, 8⟩ 1 (fun _ => 0) 2 1 1 (by decide) (by decide) (by decide)
  refine ⟨hc.2.1, hc.2.2.2.2.2.2.1, ?_⟩
  rw [hc.2.2.2.2.2.2.1 5]
  have := (createNetwork_sizes ⟨24, 8, 8⟩ 1 (fun _ => 0) 2 1 1).2.2.1
  rw [this]
  decide

/-! ### Claim C8 -/

theorem drawWeight_bounds (RM : ℕ) (rnd : ℕ → ℕ) (k i : ℕ)
    (hRM : 0 < RM) (hr : rnd k ≤ RM) :
    |drawWeight RM rnd k i| ≤ 7/10
    ∧ (i % 2 = 0 → 0 ≤ drawWeight RM rnd k i)
    ∧ (i % 2 = 1 → drawWeight RM rnd k i ≤ 0) := by
  have hq0 : (0 : ℚ) ≤ (rnd k : ℚ) / (RM : ℚ) :=
    div_nonneg (by exact_mod_cast Nat.zero_le _) (by exact_mod_cast Nat.zero_le _)
  have hq1 : ((rnd k : ℚ)) / (RM : ℚ) ≤ 1 := by
    rw [div_le_one (by exact_mod_cast hRM)]
    exact_mod_cast hr
  have hw0 : (0 : ℚ) ≤ 0.7 * ((rnd k : ℚ) / (RM : ℚ)) :=
    mul_nonneg (by norm_num) hq0
  have hw1 : 0.7 * ((rnd k : ℚ) / (RM : ℚ)) ≤ 7/10 := by
    calc 0.7 * ((rnd k : ℚ) / (RM : ℚ)) ≤ 0.7 * 1 :=
          mul_le_mul_of_nonneg_left hq1 (by norm_num)
      _ = 7/10 := by norm_num
  unfold drawWeight
  by_cases hi : i % 2 = 1
  · rw [if_pos hi]
    refine ⟨?_, fun h2 => absurd hi (by omega), fun _ => neg_nonpos.mpr hw0⟩
    rw [abs_neg, abs_of_nonneg hw0]
    exact hw1
  · rw [if_neg hi]
    refine ⟨?_, fun _ => hw0, fun h2 => absurd h2 hi⟩
    rw [abs_of_nonneg hw0]
    exact hw1

/-- Claim C8 as stated is false at the boundary: rand() may return
RAND_MAX, in which case the drawn weight is exactly 0.7, which is not in
the half-open interval [0, 0.7).  Here RAND_MAX is 1 and every rand() call
returns 1. -/
theorem claim_C8_counterexample :
    (getNode (getLayer (createNetwork ⟨24, 8, 8⟩ 1 (fun _ => 1) 1 1 1) HIDDEN) 0).weights.getD 0 0
        = 7/10
    ∧ ¬ |(getNode (getLayer (createNetwork ⟨24, 8, 8⟩ 1 (fun _ => 1) 1 1 1) HIDDEN) 0).weights.getD 0 0|
        < 7/10 := by
  rw [createNetwork_hidden_node ⟨24, 8, 8⟩ 1 (fun _ => 1) 1 1 1 0 (by decide),
    initWeightsNode_weights_getD _ _ _ _ _ (by simp) 0 (by decide)]
  norm_num [drawWeight]
  exact le_of_eq (abs_of_nonneg (by norm_num)).symm

/-- Claim C8, amended: every hidden- and output-layer weight drawn by
createNetwork has magnitude in the closed interval [0, 0.7] (the boundary
0.7 is attained when rand() returns RAND_MAX); weights at odd connection
indices are non-positive, at even indices non-negative; the bias of each node
alternates sign by node index the same way; input-layer nodes are never
randomised (no weights, bias zero). -/
theorem claim_C8_amended (C : CSizes) (RM : ℕ) (rnd : ℕ → ℕ) (i h o : ℕ)
    (hRM : 0 < RM) (hr : ∀ k, rnd k ≤ RM) :
    (∀ T : LayerType, T = HIDDEN ∨ T = OUTPUT →
      ∀ oi, oi < (getLayer (createNetwork C RM rnd i h o) T).ncount →
        (∀ wi, wi < (getNode (getLayer (createNetwork C RM rnd i h o) T) oi).wcount →
            |(getNode (getLayer (createNetwork C RM rnd i h o) T) oi).weights.getD wi 0| ≤ 7/10
            ∧ (wi % 2 = 0 →
                0 ≤ (getNode (getLayer (createNetwork C RM rnd i h o) T) oi).weights.getD wi 0)
            ∧ (wi % 2 = 1 →
                (getNode (getLayer (createNetwork C RM rnd i h o) T) oi).weights.getD wi 0 ≤ 0))
        ∧ (oi % 2 = 0 → 0 ≤ (getNode (getLayer (createNetwork C RM rnd i h o) T) oi).bias)
        ∧ (oi % 2 = 1 → (getNode (getLayer (createNetwork C RM rnd i h o) T) oi).bias ≤ 0))
    ∧ (∀ ii, ii < (getLayer (createNetwork C RM rnd i h o) INPUT).ncount →
        (getNode (getLayer (createNetwork C RM rnd i h o) INPUT) ii).weights = []
        ∧ (getNode (getLayer (createNetwork C RM rnd i h o) INPUT) ii).wcount = 0
        ∧ (getNode (getLayer (createNetwork C RM rnd i h o) INPUT) ii).bias = 0) := by
  have hbias0 : (0 : ℚ) ≤ (rnd ((0 + ∑ j2 ∈ Finset.range 0, 1) : ℕ) : ℚ) / (RM : ℚ) :=
    div_nonneg (by exact_mod_cast Nat.zero_le _) (by exact_mod_cast Nat.zero_le _)
  constructor
  · intro T hT oi hoi
    rcases hT with rfl | rfl
    · have hcount : (getLayer (createNetwork C RM rnd i h o) HIDDEN).ncount = h := by
        rw [createNetwork_hidden_layer]
      rw [hcount] at hoi
      rw [createNetwork_hidden_node C RM rnd i h o oi hoi]
      refine ⟨?_, ?_, ?_⟩
      · intro wi hwi
        have hwi2 : wi < i := by simpa using hwi
        rw [initWeightsNode_weights_getD _ _ _ _ _ (by simp) wi hwi2]
        exact drawWeight_bounds RM rnd _ wi hRM (hr _)
      · intro hoi2
        rw [initWeightsNode_bias, if_neg (by omega)]
        exact div_nonneg (by exact_mod_cast Nat.zero_le _) (by exact_mod_cast Nat.zero_le _)
      · intro hoi2
        rw [initWeightsNode_bias, if_pos hoi2]
        exact neg_nonpos.mpr
          (div_nonneg (by exact_mod_cast Nat.zero_le _) (by exact_mod_cast Nat.zero_le _))
    · have hcount : (getLayer (createNetwork C RM rnd i h o) OUTPUT).ncount = o := by
        rw [createNetwork_output_layer]
      rw [hcount] at hoi
      rw [createNetwork_output_node C RM rnd i h o oi hoi]
      refine ⟨?_, ?_, ?_⟩
      · intro wi hwi
        have hwi2 : wi < h := by simpa using hwi
        rw [initWeightsNode_weights_getD _ _ _ _ _ (by simp) wi hwi2]
        exact drawWeight_bounds RM rnd _ wi hRM (hr _)
      · intro hoi2
        rw [initWeightsNode_bias, if_neg (by omega)]
        exact div_nonneg (by exact_mod_cast Nat.zero_le _) (by exact_mod_cast Nat.zero_le _)
      · intro hoi2
        rw [initWeightsNode_bias, if_pos hoi2]
        exact neg_nonpos.mpr
          (div_nonneg (by exact_mod_cast Nat.zero_le _) (by exact_mod_cast Nat.zero_le _))
  · intro ii hii
    have hcount : (getLayer (createNetwork C RM rnd i h o) INPUT).ncount = i := by
      rw [createNetwork_input_layer]
      rfl
    rw [hcount] at hii
    rw [createNetwork_input_node C RM rnd i h o ii hii]
    exact ⟨rfl, rfl, rfl⟩

theorem claim_C8_witness :
    |(getNode (getLayer (createNetwork ⟨24, 8, 8⟩ 2 (fun _ => 1) 1 1 1) HIDDEN) 0).weights.getD 0 0|
        ≤ 7/10
    ∧ 0 ≤ (getNode (getLayer (createNetwork ⟨24, 8, 8⟩ 2 (fun _ => 1) 1 1 1) HIDDEN) 0).bias := by
  have hc := claim_C8_amended ⟨24, 8, 8⟩ 2 (fun _ => 1) 1 1 1 (by decide) (fun k => by norm_num)
  exact ⟨((hc.1 HIDDEN (Or.inl rfl) 0 (by decide)).1 0 (by decide)).1,
    (hc.1 HIDDEN (Or.inl rfl) 0 (by decide)).2.1 (by decide)⟩

end Mnist3lnn
